import Mathlib

/-!
Verification of the Scheduling & Dispatch Engine of `server.js`.

The definitions below are a shallow embedding of the JavaScript source:
  * loose JS numeric values (`Number(x) || 0`, `x || default`, `Math.max`)
    are modelled by `JNum` and the `js*` helpers;
  * the messaging transport is an oracle `String → TxMsg → Except String Unit`
    (a call that throws is `.error msg`);
  * file existence is an oracle `String → Bool`;
  * `node-cron`'s `validate` and `Intl` timezone validation are oracles
    `String → Bool`;
  * the JSON stores are plain lists of records, persistence of a list is
    modelled by returning the list that the source hands to `saveSchedules`
    or `saveCampaigns`.
-/

/-- A loose JavaScript numeric input as it reaches the delay parameters:
a finite number, `NaN` (falsy, numeric value `NaN`), or a non-empty
non-numeric string (truthy, `Number` of it is `NaN` unless it parses). -/
inductive JNum where
  | num (n : Int)
  | nanv
  | strv (v : Option Int)
deriving Repr, DecidableEq

/-- The JS conversion `Number(x)` for a `JNum`; `none` stands for `NaN`. -/
def jNumber : JNum → Option Int
  | .num n => some n
  | .nanv => none
  | .strv v => v

/-- JavaScript truthiness of a `JNum` (`0` and `NaN` are falsy,
non-empty strings are truthy). -/
def jsTruthyNum : JNum → Bool
  | .num n => n != 0
  | .nanv => false
  | .strv _ => true

/-- The JS idiom `Number(x) || 0` where `x` may also be absent (`undefined`). -/
def jsNumOr0 : Option JNum → Int
  | some j => (jNumber j).getD 0
  | none => 0

/-- Fallback `x || d` on a possibly absent `JNum` (falsy values fall back to `d`). -/
def jsOrNum : Option JNum → Int → JNum
  | some j, d => if jsTruthyNum j then j else .num d
  | none, d => .num d

/-- The clamp `Math.max(floor, Number(x || d))` as stored on a job record;
`none` is a stored `NaN` (serialized as `null`). -/
def jsClampStore (floor : Int) (v : Option JNum) (d : Int) : Option Int :=
  (jNumber (jsOrNum v d)).map (fun n => max floor n)

/-- Fallback `x || d` on a stored numeric field that may be `null` (from a
serialized `NaN`) — `null` and `0` are falsy. -/
def jsOrInt : Option Int → Int → Int
  | some n, d => if n = 0 then d else n
  | none, d => d

/-- Fallback `x || d` on a possibly absent string (the empty string is falsy). -/
def jsStrOrD : Option String → String → String
  | some s, d => if s = "" then d else s
  | none, d => d

/-- Fallback `x || null` on a possibly absent string field. -/
def jsStrOrNull : Option String → Option String
  | some s => if s = "" then none else some s
  | none => none

/-- The target address grammar check `/@g\.us$/.test(x)`: the string ends
with the literal suffix `@g.us` (stated on the character list so that the
check evaluates inside the kernel). -/
def isGroupId (s : String) : Bool := "@g.us".data.isSuffixOf s.data

/-- One transmission handed to the transport: a bare text message, or one
media item with an optional caption. -/
inductive TxMsg where
  | text (body : String)
  | media (path : String) (caption : Option String)
deriving Repr, DecidableEq

/-- The transport oracle: `client.sendMessage` for one payload; `.error e`
models a rejected promise with message `e`. -/
abbrev Transport := String → TxMsg → Except String Unit

/-- The media loop of `sendToOneGroup`: send each media item, caption
(the text) only on the first; an error aborts the remaining sends of
this target only. -/
def sendMediaSeq (tx : Transport) (gid text : String) :
    List String → Bool → Except String Unit
  | [], _ => .ok ()
  | p :: rest, first =>
    match tx gid (.media p (if first then some text else none)) with
    | .ok _ => sendMediaSeq tx gid text rest false
    | .error e => .error e

/-- The helper `sendToOneGroup(id, text, mediaPaths, mediaDelayMs)`: with no media,
send the text alone (skip when the text is falsy); otherwise send each
media item, text as caption only on the first. -/
def sendToOneGroup (tx : Transport) (gid text : String)
    (mediaPaths : List String) (_mediaDelayMs : Option JNum) :
    Except String Unit :=
  if mediaPaths.isEmpty then
    if text = "" then .ok () else tx gid (.text text)
  else
    sendMediaSeq tx gid text mediaPaths true

/-- One per-target entry of the result list built by `sendToMany`. -/
structure Outcome where
  id : String
  ok : Bool
  error : Option String := none
deriving Repr, DecidableEq

/-- The dispatcher `sendToMany(ids, text, mediaPaths, mediaDelayMs, groupDelayMs)`:
sequentially per target, catch this target's failure locally, then sleep
`Math.max(1500, Number(groupDelayMs) || 0)`.  Returns the outcome list
together with the list of inter-target sleeps actually performed. -/
def sendToMany (tx : Transport) (ids : List String) (text : String)
    (mediaPaths : List String) (mediaDelayMs groupDelayMs : Option JNum) :
    List Outcome × List Int :=
  match ids with
  | [] => ([], [])
  | gid :: rest =>
    let o : Outcome :=
      match sendToOneGroup tx gid text mediaPaths mediaDelayMs with
      | .ok _ => { id := gid, ok := true, error := none }
      | .error e => { id := gid, ok := false, error := some e }
    let r := sendToMany tx rest text mediaPaths mediaDelayMs groupDelayMs
    (o :: r.1, max 1500 (jsNumOr0 groupDelayMs) :: r.2)

/-- The outcome `sendToMany` records for a single target. -/
def oneOutcome (tx : Transport) (text : String) (mediaPaths : List String)
    (mediaDelayMs : Option JNum) (gid : String) : Outcome :=
  match sendToOneGroup tx gid text mediaPaths mediaDelayMs with
  | .ok _ => { id := gid, ok := true, error := none }
  | .error e => { id := gid, ok := false, error := some e }

/-- A transport for which only the target `B@g.us` throws. -/
def txFailB : Transport := fun gid _ =>
  if gid = "B@g.us" then .error "boom" else .ok ()

/-!
The recurring-job concurrency guard.

The cron callback of `scheduleCampaignEngine` is

```
if (state.running) return;          -- skipped firing
state.running = true;               -- entry of an executed firing
try { ... body ... }
finally { state.running = false; }  -- exit of an executed firing
```

On the single-threaded event loop a firing can only interleave with an
in-progress run at `await` points, where `running` is already `true`.
We model the observable guard events: `fire` (the trigger fires) and
`finish` (an executed firing reaches its `finally`, on any of the three
exit paths — success, validation failure, or exception; the body between
entry and `finally` is the total function `campaignFireBody` below).
`active` counts executed firings currently between entry and `finally`.
-/

/-- The guard state of one recurring job: its `running` flag and the
number of its in-progress executed firings. -/
structure GuardState where
  running : Bool
  active : Nat
deriving Repr, DecidableEq

/-- Observable guard events of one recurring job. -/
inductive GEvent where
  | fire
  | finish
deriving Repr, DecidableEq

/-- One guard transition: a firing while `running` is skipped entirely
(state unchanged — not queued, not retried); otherwise the run enters
with `running := true`.  `finish` is the `finally` of an executed run:
it always clears `running`. -/
def gStep (st : GuardState) : GEvent → GuardState
  | .fire => if st.running then st else { running := true, active := st.active + 1 }
  | .finish => if st.active = 0 then st else { running := false, active := st.active - 1 }

/-- Initial guard state of a freshly armed job (`{ running: false }`). -/
def initGuard : GuardState := { running := false, active := 0 }

/-- The guard state after a sequence of guard events. -/
def runGuard (evs : List GEvent) : GuardState := evs.foldl gStep initGuard

/-- The guard invariant: the `running` flag counts the in-progress runs. -/
def guardInv (st : GuardState) : Prop :=
  st.active = (if st.running then 1 else 0)

/-!
One-shot jobs (`schedules.json`, `rearmSchedules`).

A `Schedule` record as built by `POST /api/schedules`; the stored ISO
`when` string is represented by the millisecond timestamp it denotes
(`new Date(s.when).getTime()`). -/

structure Schedule where
  id : String
  name : String
  ids : List String
  message : String
  media : List String
  whenMs : Int
  mediaDelayMs : Option Int
  groupDelayMs : Option Int
  status : String
  createdAt : String
  sentAt : Option String := none
  error : Option String := none
deriving Repr, DecidableEq

/-- The arming pass of `rearmSchedules`: for each stored job still `pending`,
set one timer with delay `Math.max(0, whenMs - now)`; resolved jobs get no
timer.  Returns the armed `(id, delay)` pairs in store order. -/
def rearmSchedules (now : Int) : List Schedule → List (String × Int)
  | [] => []
  | s :: rest =>
    if s.status = "pending" then
      (s.id, max 0 (s.whenMs - now)) :: rearmSchedules now rest
    else
      rearmSchedules now rest

/-- The timer callback of `rearmSchedules`: if the transport is not ready,
mark the job `failed` with that reason; otherwise call `sendToMany` with
the stored fields as they are and mark the job `sent`.  No target-grammar
or media-existence validation happens here — the callback takes no
file-existence oracle at all.  Returns the updated record and the
per-target outcomes of the dispatch (empty when no dispatch ran). -/
def oneShotFire (ready : Bool) (tx : Transport) (s : Schedule)
    (nowIso : String) : Schedule × List Outcome :=
  if ready then
    let r := sendToMany tx s.ids s.message s.media
      (s.mediaDelayMs.map JNum.num) (s.groupDelayMs.map JNum.num)
    ({ s with status := "sent", sentAt := some nowIso }, r.1)
  else
    ({ s with
        status := "failed",
        error := some "WhatsApp no está listo en el momento de envío." }, [])

/-- A pending job whose fire time is already in the past. -/
def schedPast : Schedule :=
  { id := "s-past", name := "pub-s-past", ids := ["x@g.us"], message := "hola",
    media := [], whenMs := 100, mediaDelayMs := some 2000,
    groupDelayMs := some 2000, status := "pending",
    createdAt := "2026-01-01T00:00:00.000Z" }

/-- A transport that accepts every payload. -/
def txAllOk : Transport := fun _ _ => .ok ()

/-- A one-shot job whose target violates the address grammar and whose
media path is dangling. -/
def schedNoCheck : Schedule :=
  { id := "s1", name := "pub-s1", ids := ["not-a-group-id"], message := "hola",
    media := ["/uploads/deleted.png"], whenMs := 0, mediaDelayMs := some 2000,
    groupDelayMs := some 2000, status := "pending",
    createdAt := "2026-01-01T00:00:00.000Z" }

/-!
HTTP result values and generic store update helpers.
-/

/-- The JSON result of an API handler: success payload or an HTTP error
status with its message. -/
inductive ApiResult (α : Type) where
  | ok (item : α)
  | err (code : Nat) (msg : String)
deriving Repr, DecidableEq

/-- JS `findIndex` followed by `arr[idx] = item` when found, `push` otherwise. -/
def replaceFirstOrAppend {α : Type} (p : α → Bool) (item : α) :
    List α → List α
  | [] => [item]
  | x :: xs => if p x then item :: xs else x :: replaceFirstOrAppend p item xs

/-- JS `findIndex` followed by an in-place mutation of the found record;
identity when no record matches. -/
def updateFirst {α : Type} (p : α → Bool) (f : α → α) : List α → List α
  | [] => []
  | x :: xs => if p x then f x :: xs else x :: updateFirst p f xs

/-!
The cancel endpoint `POST /api/schedules/:id/cancel`.

`timers` models the in-memory `SCHEDULES` map as the list of ids holding a
live timeout; `clearTimeout` plus `SCHEDULES.delete(id)` is `List.erase`.
-/

/-- The cancel handler: `NotFound` when no record has the id; otherwise it
unconditionally sets `status = 'canceled'` on the first matching record,
persists, clears the timer, and answers success. -/
def cancelSchedule (id : String) (store : List Schedule)
    (timers : List String) :
    ApiResult Unit × List Schedule × List String :=
  if store.all (fun x => !(x.id == id)) then
    (.err 404 "Programación no encontrada.", store, timers)
  else
    (.ok (),
     updateFirst (fun x => x.id == id) (fun x => { x with status := "canceled" }) store,
     timers.erase id)

/-- A one-shot job that already reached the terminal state `sent`. -/
def schedSent : Schedule :=
  { id := "s1", name := "pub-s1", ids := ["x@g.us"], message := "hola",
    media := [], whenMs := 100, mediaDelayMs := some 2000,
    groupDelayMs := some 2000, status := "sent",
    createdAt := "2026-01-01T00:00:00.000Z",
    sentAt := some "2026-01-01T00:01:00.000Z" }

/-!
The endpoint `POST /api/schedules` — create/replace a one-shot job.
-/

/-- The JSON body of `POST /api/schedules` (fields absent from the body
are `none`; a non-array `media` is normalised by the handler, so `media`
is carried as an optional list). -/
structure SchedulePayload where
  id : Option String := none
  name : Option String := none
  ids : List String := []
  message : Option String := none
  media : Option (List String) := none
  when : Option String := none
  mediaDelayMs : Option JNum := none
  groupDelayMs : Option JNum := none
deriving Repr, DecidableEq

/-- The record the handler builds: status always resets to `pending`,
`mediaDelayMs` is floored at `0`, `groupDelayMs` at `1500`, and the id
falls back to a generated one.  `whenTs` is the parsed `Date.parse`
value of the `when` field. -/
def mkScheduleItem (p : SchedulePayload) (genId : String) (whenTs : Int)
    (nowIso : String) : Schedule :=
  let id := jsStrOrD p.id genId
  { id := id
    name := jsStrOrD p.name ("pub-" ++ id)
    ids := p.ids
    message := jsStrOrD p.message ""
    media := p.media.getD []
    whenMs := whenTs
    mediaDelayMs := jsClampStore 0 p.mediaDelayMs 2000
    groupDelayMs := jsClampStore 1500 p.groupDelayMs 2000
    status := "pending"
    createdAt := nowIso }

/-- The `POST /api/schedules` handler: reject when the transport is not
ready, then validate ids (non-empty, address grammar) and the `when`
timestamp (`parseDate` is the `Date.parse` oracle, `none` for `NaN`);
on success upsert the rebuilt record by id.  Returns the HTTP result and
the store as persisted. -/
def postSchedules (ready : Bool) (parseDate : String → Option Int)
    (genId nowIso : String) (p : SchedulePayload) (store : List Schedule) :
    ApiResult Schedule × List Schedule :=
  if ready = false then (.err 409 "WhatsApp no está listo.", store)
  else if p.ids.isEmpty then (.err 400 "ids[] es obligatorio.", store)
  else if (p.ids.filter (fun x => !isGroupId x)).isEmpty = false then
    (.err 400 ("IDs inválidos: "
        ++ String.intercalate ", " (p.ids.filter (fun x => !isGroupId x))), store)
  else if jsStrOrD p.when "" = "" then
    (.err 400 "El campo when (ISO) es obligatorio.", store)
  else
    match parseDate (jsStrOrD p.when "") with
    | none => (.err 400 "Fecha/hora inválida.", store)
    | some ts =>
      let item := mkScheduleItem p genId ts nowIso
      (.ok item, replaceFirstOrAppend (fun x => x.id == item.id) item store)

/-!
Recurring campaigns (`campaigns.json`, `scheduleCampaignEngine`).
-/

/-- A recurring campaign record as persisted in `campaigns.json`. -/
structure Campaign where
  id : String
  name : String
  ids : List String
  message : String
  media : List String
  mediaDelayMs : Option Int
  groupDelayMs : Option Int
  cron : String
  tz : Option String
  enabled : Bool
  lastRunAt : Option String := none
  lastError : Option String := none
  createdAt : String
deriving Repr, DecidableEq

/-- The expression `c.tz && validateTimeZone(c.tz) ? c.tz : undefined`: an absent, empty
or invalid timezone silently falls back to the engine default (`undefined`)
— it does not disable the job. -/
def effTz (tzValid : String → Bool) (tz : Option String) : Option String :=
  match tz with
  | some t => if t ≠ "" ∧ tzValid t = true then some t else none
  | none => none

/-- The rebuild loop of `scheduleCampaignEngine`: walk the loaded store;
skip disabled jobs; on an invalid calendar expression force
`enabled := false` and skip arming; otherwise arm a trigger
`(id, cron, effective timezone)`.  Returns the item list as persisted by
the final `saveCampaigns(items)` together with the armed triggers, in
store order.  The function is total: a store containing an invalid
expression is processed without throwing. -/
def scheduleCampaignEngine (cronValid tzValid : String → Bool) :
    List Campaign → List Campaign × List (String × String × Option String)
  | [] => ([], [])
  | c :: rest =>
    let r := scheduleCampaignEngine cronValid tzValid rest
    if c.enabled = false then (c :: r.1, r.2)
    else if cronValid c.cron = false then ({ c with enabled := false } :: r.1, r.2)
    else (c :: r.1, (c.id, c.cron, effTz tzValid c.tz) :: r.2)

/-- The guarded cron-callback body of one campaign firing (the code
between `state.running = true` and the `finally`): check transport
readiness, media existence and target grammar, dispatch via `sendToMany`,
then write run metadata back through the freshly loaded store.  On
success only `lastRunAt` is written; on any failure `lastError` and
`lastRunAt` are both written.  Returns the store as persisted and the
dispatch outcomes (empty when no dispatch ran). -/
def campaignFireBody (ready : Bool) (fileExists : String → Bool)
    (tx : Transport) (c : Campaign) (store : List Campaign)
    (nowIso : String) : List Campaign × List Outcome :=
  if ready = false then
    (updateFirst (fun x => x.id == c.id)
       (fun x => { x with
           lastError := some "WhatsApp no está listo.",
           lastRunAt := some nowIso }) store, [])
  else if c.media.all fileExists = false then
    (updateFirst (fun x => x.id == c.id)
       (fun x => { x with
           lastError := some "Una o más imágenes no existen en el servidor.",
           lastRunAt := some nowIso }) store, [])
  else if (c.ids.filter (fun x => !isGroupId x)).isEmpty = false then
    (updateFirst (fun x => x.id == c.id)
       (fun x => { x with
           lastError := some ("IDs inválidos: "
             ++ String.intercalate ", " (c.ids.filter (fun x => !isGroupId x))),
           lastRunAt := some nowIso }) store, [])
  else
    let r := sendToMany tx c.ids c.message c.media
      (some (.num (max 0 (jsOrInt c.mediaDelayMs 2000))))
      (some (.num (max 1500 (jsOrInt c.groupDelayMs 2000))))
    (updateFirst (fun x => x.id == c.id)
       (fun x => { x with lastRunAt := some nowIso }) store, r.1)

/-- An enabled campaign with a valid calendar expression but an invalid
timezone name. -/
def campBadTz : Campaign :=
  { id := "c2", name := "camp-c2", ids := ["g@g.us"], message := "hola",
    media := [], mediaDelayMs := some 2000, groupDelayMs := some 2000,
    cron := "* * * * *", tz := some "Not/A_Zone", enabled := true,
    createdAt := "2026-01-01T00:00:00.000Z" }

/-- An enabled campaign whose calendar expression is invalid. -/
def campBadCron : Campaign :=
  { id := "c3", name := "camp-c3", ids := ["g@g.us"], message := "hola",
    media := [], mediaDelayMs := some 2000, groupDelayMs := some 2000,
    cron := "not-a-cron", tz := some "America/New_York", enabled := true,
    createdAt := "2026-01-01T00:00:00.000Z" }

/-- An enabled campaign carrying a stale `lastError` from an earlier
failed run. -/
def campStale : Campaign :=
  { id := "c1", name := "camp-c1", ids := ["g1@g.us"], message := "hola",
    media := [], mediaDelayMs := some 2000, groupDelayMs := some 2000,
    cron := "* * * * *", tz := some "America/New_York", enabled := true,
    lastRunAt := none, lastError := some "previous failure",
    createdAt := "2026-01-01T00:00:00.000Z" }

/-!
The endpoint `POST /api/campaigns` — create/replace a recurring job.
-/

/-- The JSON body of `POST /api/campaigns` (a non-array `ids`/`media` is
normalised by the handler to `[]`, so both are carried as plain lists). -/
structure CampaignPayload where
  id : Option String := none
  name : Option String := none
  ids : List String := []
  message : Option String := none
  media : List String := []
  mediaDelayMs : Option JNum := none
  groupDelayMs : Option JNum := none
  cron : Option String := none
  tz : Option String := none
  enabled : Option Bool := none
deriving Repr, DecidableEq

/-- The fresh record `POST /api/campaigns` builds from its payload:
`lastRunAt` and `lastError` start as `null`. -/
def mkCampaignItem (p : CampaignPayload) (genId nowIso : String) : Campaign :=
  let id := jsStrOrD p.id genId
  { id := id
    name := jsStrOrD p.name ("camp-" ++ id)
    ids := p.ids
    message := jsStrOrD p.message ""
    media := p.media
    mediaDelayMs := jsClampStore 0 p.mediaDelayMs 2000
    groupDelayMs := jsClampStore 1500 p.groupDelayMs 2000
    cron := p.cron.getD ""
    tz := some (jsStrOrD p.tz "America/New_York")
    enabled := p.enabled.getD true
    lastRunAt := none
    lastError := none
    createdAt := nowIso }

/-- The `POST /api/campaigns` handler: validate ids, calendar expression,
timezone, target grammar and media existence; then upsert by id — when
the id already exists, the previous record's `lastRunAt`/`lastError` are
carried onto the new record (coercing falsy values to `null`) before it
replaces the old one.  The mutated record is also what the response
returns. -/
def postCampaigns (cronValid tzValid fileExists : String → Bool)
    (genId nowIso : String) (p : CampaignPayload) (store : List Campaign) :
    ApiResult Campaign × List Campaign :=
  if p.ids.isEmpty then (.err 400 "ids[] es obligatorio.", store)
  else if jsStrOrD p.cron "" = "" then
    (.err 400 "CRON inválido. Ej.: */20 * * * * (cada 20 min)", store)
  else if cronValid (jsStrOrD p.cron "") = false then
    (.err 400 "CRON inválido. Ej.: */20 * * * * (cada 20 min)", store)
  else if tzValid (jsStrOrD p.tz "America/New_York") = false then
    (.err 400 "Zona horaria inválida.", store)
  else if (p.ids.filter (fun x => !isGroupId x)).isEmpty = false then
    (.err 400 ("IDs inválidos: "
        ++ String.intercalate ", " (p.ids.filter (fun x => !isGroupId x))), store)
  else if p.media.all fileExists = false then
    (.err 400 "Una o más imágenes no existen en el servidor.", store)
  else
    let item := mkCampaignItem p genId nowIso
    match store.find? (fun x => x.id == item.id) with
    | some old =>
      let item2 := { item with
          lastRunAt := jsStrOrNull old.lastRunAt,
          lastError := jsStrOrNull old.lastError }
      (.ok item2, replaceFirstOrAppend (fun x => x.id == item.id) item2 store)
    | none => (.ok item, store ++ [item])

/-- A stored campaign carrying run metadata from earlier firings. -/
def campOld : Campaign :=
  { id := "c1", name := "camp-c1", ids := ["g1@g.us"], message := "viejo",
    media := [], mediaDelayMs := some 2000, groupDelayMs := some 2000,
    cron := "* * * * *", tz := some "America/New_York", enabled := true,
    lastRunAt := some "2025-05-01T00:00:00.000Z", lastError := some "boom",
    createdAt := "2025-01-01T00:00:00.000Z" }

/-- A re-submission of campaign `c1` with fresh content. -/
def campPayload : CampaignPayload :=
  { id := some "c1", ids := ["g1@g.us"], message := some "nuevo",
    media := [], cron := some "* * * * *", tz := some "America/New_York" }

/-- A re-submission of one-shot job `s1` (whose stored record is the
terminal `schedSent`). -/
def pSched : SchedulePayload :=
  { id := some "s1", ids := ["x@g.us"],
    when := some "2026-01-05T00:00:00.000Z" }

/-!
Theorems.  Helper lemmas come first; each claim theorem carries a doc
comment naming its claim, and each claim theorem with a hypothesis is
followed by its witness at concrete inputs.
-/

theorem sendToMany_eq (tx : Transport) (text : String)
    (mediaPaths : List String) (md gd : Option JNum) (ids : List String) :
    sendToMany tx ids text mediaPaths md gd
      = (ids.map (oneOutcome tx text mediaPaths md),
         List.replicate ids.length (max 1500 (jsNumOr0 gd))) := by
  induction ids with
  | nil => rfl
  | cons g rest ih =>
    simp only [sendToMany, ih, List.map, List.length_cons, List.replicate,
      oneOutcome]

/-- C2: every call to the pacing dispatcher applies, after every target
processed, exactly the inter-target delay `max(1500, Number(groupDelayMs) || 0)`,
which is at least 1500 ms for every requested value — a finite number
(including `0` and negatives), `NaN`, a non-numeric string, or an omitted
argument.  All three call sites (immediate send, one-shot fire, recurring
fire) go through `sendToMany`, so the floor is enforced regardless of the
caller. -/
theorem sendToMany_pacing_floor (tx : Transport) (ids : List String)
    (text : String) (mediaPaths : List String) (md gd : Option JNum) :
    (sendToMany tx ids text mediaPaths md gd).2
        = List.replicate ids.length (max 1500 (jsNumOr0 gd))
      ∧ (1500 : Int) ≤ max 1500 (jsNumOr0 gd) := by
  constructor
  · rw [sendToMany_eq]
  · exact le_max_left _ _

/-- C3: the dispatcher returns exactly one outcome per target, in input
order, each outcome depending only on its own target's sends (`ok := true`
on success, `ok := false` with the error message on failure), the
inter-target delay is performed after every target including failing ones,
and — concretely — dispatching to `[A, B, C]` where only B throws yields
`[{A, ok}, {B, ¬ok, "boom"}, {C, ok}]` with all three delays performed. -/
theorem sendToMany_outcomes (tx : Transport) (ids : List String)
    (text : String) (mediaPaths : List String) (md gd : Option JNum) :
    (sendToMany tx ids text mediaPaths md gd).1
        = ids.map (oneOutcome tx text mediaPaths md)
      ∧ (sendToMany tx ids text mediaPaths md gd).2.length = ids.length
      ∧ sendToMany txFailB ["A@g.us", "B@g.us", "C@g.us"] "hola" [] none none
          = ([{ id := "A@g.us", ok := true, error := none },
              { id := "B@g.us", ok := false, error := some "boom" },
              { id := "C@g.us", ok := true, error := none }],
             [1500, 1500, 1500]) := by
  refine ⟨?_, ?_, ?_⟩
  · rw [sendToMany_eq]
  · rw [sendToMany_eq]; simp
  · rfl

theorem gStep_inv (st : GuardState) (e : GEvent) (h : guardInv st) :
    guardInv (gStep st e) := by
  cases e with
  | fire =>
    by_cases hr : st.running
    · simpa [gStep, hr] using h
    · simp only [guardInv, gStep, hr, if_false, if_true]
      simp only [Bool.not_eq_true] at hr
      simp [guardInv, hr] at h
      simp [h]
  | finish =>
    by_cases ha : st.active = 0
    · simpa [gStep, ha] using h
    · have hr : st.running = true := by
        by_contra hr
        simp only [Bool.not_eq_true] at hr
        simp [guardInv, hr] at h
        exact ha h
      simp [guardInv, gStep, ha, hr] at h ⊢
      omega

theorem runGuard_inv (evs : List GEvent) : guardInv (runGuard evs) := by
  have main : ∀ st : GuardState, guardInv st → guardInv (evs.foldl gStep st) := by
    induction evs with
    | nil => intro st h; exact h
    | cons e rest ih => intro st h; exact ih _ (gStep_inv st e h)
  exact main initGuard (by simp [guardInv, initGuard])

/-- C1: for one recurring job, (i) at most one executed firing is ever in
progress — no two invocations of the fire logic overlap; (ii) a firing
while `running = true` leaves the guard state unchanged (skipped entirely,
not queued, not retried); (iii) every executed firing (one that changes the
state) enters with `running = false` and registers exactly one new active
run; (iv) the `finally` of any in-progress run clears `running` — on every
exit path, since `campaignFireBody` is total and the `finally` is
unconditional. -/
theorem campaign_guard_no_overlap (evs : List GEvent) :
    (runGuard evs).active ≤ 1
      ∧ (∀ st : GuardState, st.running = true → gStep st .fire = st)
      ∧ (∀ st : GuardState, gStep st .fire ≠ st →
          st.running = false ∧ (gStep st .fire).active = st.active + 1)
      ∧ (∀ st : GuardState, st.active ≠ 0 →
          (gStep st .finish).running = false) := by
  refine ⟨?_, ?_, ?_, ?_⟩
  · have h := runGuard_inv evs
    unfold guardInv at h
    rw [h]
    split <;> simp
  · intro st hr
    simp [gStep, hr]
  · intro st hne
    by_cases hr : st.running
    · exact absurd (by simp [gStep, hr]) hne
    · simp only [Bool.not_eq_true] at hr
      exact ⟨hr, by simp [gStep, hr]⟩
  · intro st ha
    simp [gStep, ha]

/-- Witness for C1 at concrete guard states and event sequences. -/
theorem campaign_guard_no_overlap_witness :
    (runGuard [GEvent.fire, GEvent.fire, GEvent.finish]).active ≤ 1
      ∧ gStep ⟨true, 1⟩ GEvent.fire = ⟨true, 1⟩
      ∧ ((⟨false, 0⟩ : GuardState).running = false
          ∧ (gStep ⟨false, 0⟩ GEvent.fire).active = (⟨false, 0⟩ : GuardState).active + 1)
      ∧ (gStep ⟨true, 1⟩ GEvent.finish).running = false :=
  ⟨(campaign_guard_no_overlap [GEvent.fire, GEvent.fire, GEvent.finish]).1,
   (campaign_guard_no_overlap []).2.1 ⟨true, 1⟩ rfl,
   (campaign_guard_no_overlap []).2.2.1 ⟨false, 0⟩ (by decide),
   (campaign_guard_no_overlap []).2.2.2 ⟨true, 1⟩ (by decide)⟩

theorem rearm_mem (now : Int) (arr : List Schedule) (s : Schedule)
    (hmem : s ∈ arr) (hp : s.status = "pending") :
    (s.id, max 0 (s.whenMs - now)) ∈ rearmSchedules now arr := by
  induction arr with
  | nil => cases hmem
  | cons t rest ih =>
    rcases List.mem_cons.mp hmem with h | h
    · subst h
      simp [rearmSchedules, hp]
    · by_cases hs : t.status = "pending"
      · simp only [rearmSchedules, hs, if_pos rfl]
        exact List.mem_cons_of_mem _ (ih h)
      · simpa [rearmSchedules, hs] using ih h

/-- C9: arming a pending one-shot job sets a timer with delay
`max(0, whenMs - now)`; in particular a `whenMs` already in the past
clamps to delay `0`, so the job fires immediately rather than being
treated as missed. -/
theorem oneShot_delay_clamps (now : Int) (arr : List Schedule)
    (s : Schedule) (hmem : s ∈ arr) (hp : s.status = "pending") :
    (s.id, max 0 (s.whenMs - now)) ∈ rearmSchedules now arr
      ∧ (s.whenMs ≤ now → max 0 (s.whenMs - now) = 0) := by
  refine ⟨rearm_mem now arr s hmem hp, fun hle => ?_⟩
  have : s.whenMs - now ≤ 0 := by omega
  omega

/-- Witness for C9 at a concrete store and clock. -/
theorem oneShot_delay_clamps_witness :
    (("s-past", max 0 ((100 : Int) - 200)) ∈ rearmSchedules 200 [schedPast])
      ∧ max 0 ((100 : Int) - 200) = 0 := by
  have h := oneShot_delay_clamps 200 [schedPast] schedPast
    (by simp) (by rfl)
  exact ⟨h.1, h.2 (by decide)⟩

/-- C4 counterexample: the claim says a one-shot firing with the transport
ready validates targets against the address grammar and re-checks media
existence, marking the job `failed` and skipping the dispatcher on a
violation.  Concretely, firing `schedNoCheck` — whose single target fails
the grammar — with the transport ready marks the job `sent` and the
dispatcher runs on its one target anyway. -/
theorem oneShot_fire_no_validation_cex :
    isGroupId "not-a-group-id" = false
      ∧ (oneShotFire true txAllOk schedNoCheck "2026-01-02T00:00:00.000Z").1.status
          = "sent"
      ∧ (oneShotFire true txAllOk schedNoCheck "2026-01-02T00:00:00.000Z").2.length
          = 1 := by
  refine ⟨?_, rfl, rfl⟩
  rfl

/-- C4 (amended): at one-shot fire time only transport readiness is
checked.  Not ready marks the job `failed` with that reason and no
dispatch runs; ready always invokes the pacing dispatcher on every stored
target and marks the job `sent` — for any job record, regardless of target
grammar or media existence (the callback consults no file-existence
oracle). -/
theorem oneShotFire_checks_only_readiness (tx : Transport) (s : Schedule)
    (nowIso : String) :
    ((oneShotFire false tx s nowIso).1.status = "failed"
        ∧ (oneShotFire false tx s nowIso).1.error
            = some "WhatsApp no está listo en el momento de envío."
        ∧ (oneShotFire false tx s nowIso).2 = [])
      ∧ ((oneShotFire true tx s nowIso).1.status = "sent"
        ∧ (oneShotFire true tx s nowIso).1.sentAt = some nowIso
        ∧ (oneShotFire true tx s nowIso).2.length = s.ids.length) := by
  refine ⟨⟨rfl, rfl, rfl⟩, ⟨rfl, rfl, ?_⟩⟩
  simp only [oneShotFire, if_pos, sendToMany_eq]
  simp

theorem replaceFirstOrAppend_middle {α : Type} (p : α → Bool) (item : α)
    (pre : List α) (old : α) (post : List α)
    (hpre : ∀ x ∈ pre, p x = false) (hold : p old = true) :
    replaceFirstOrAppend p item (pre ++ old :: post) = pre ++ item :: post := by
  induction pre with
  | nil => simp [replaceFirstOrAppend, hold]
  | cons y ys ih =>
    have hy : p y = false := hpre y (by simp)
    simp only [List.cons_append, replaceFirstOrAppend, hy, Bool.false_eq_true,
      if_false, List.cons.injEq, true_and]
    exact ih (fun x hx => hpre x (by simp [hx]))

theorem updateFirst_middle {α : Type} (p : α → Bool) (f : α → α)
    (pre : List α) (old : α) (post : List α)
    (hpre : ∀ x ∈ pre, p x = false) (hold : p old = true) :
    updateFirst p f (pre ++ old :: post) = pre ++ f old :: post := by
  induction pre with
  | nil => simp [updateFirst, hold]
  | cons y ys ih =>
    have hy : p y = false := hpre y (by simp)
    simp only [List.cons_append, updateFirst, hy, Bool.false_eq_true,
      if_false, List.cons.injEq, true_and]
    exact ih (fun x hx => hpre x (by simp [hx]))

/-- C8 counterexample: the claim says cancel on a job already in a
terminal state is a no-op that leaves the stored status unchanged.
Concretely, canceling the already-`sent` job `schedSent` answers success
but rewrites its stored status to `canceled`. -/
theorem cancel_sent_not_noop_cex :
    schedSent.status = "sent"
      ∧ (cancelSchedule "s1" [schedSent] []).1 = .ok ()
      ∧ (cancelSchedule "s1" [schedSent] []).2.1
          = [{ schedSent with status := "canceled" }] := by
  exact ⟨rfl, rfl, rfl⟩

/-- C8 (amended): canceling an id absent from the store answers `404`
and changes nothing; canceling an existing job — whatever its current
status, `pending` or terminal — answers success, rewrites the first
matching record's status to `canceled`, persists that, and clears the
job's in-memory timer. -/
theorem cancelSchedule_spec (id : String) (timers : List String)
    (store pre post : List Schedule) (old : Schedule)
    (habsent : ∀ x ∈ store, x.id ≠ id)
    (hpre : ∀ x ∈ pre, x.id ≠ id) (hold : old.id = id) :
    cancelSchedule id store timers = (.err 404 "Programación no encontrada.", store, timers)
      ∧ cancelSchedule id (pre ++ old :: post) timers
          = (.ok (), pre ++ { old with status := "canceled" } :: post, timers.erase id) := by
  constructor
  · have hall : store.all (fun x => !(x.id == id)) = true := by
      rw [List.all_eq_true]
      intro x hx
      simpa using habsent x hx
    simp [cancelSchedule, hall]
  · have hall : ((pre ++ old :: post).all (fun x => !(x.id == id))) = false := by
      rw [List.all_eq_false]
      refine ⟨old, by simp, by simp [hold]⟩
    rw [cancelSchedule, hall]
    simp only [Bool.false_eq_true, if_false]
    rw [updateFirst_middle _ _ pre old post
      (fun x hx => by simpa using hpre x hx) (by simp [hold])]

/-- Witness for C8 at a concrete store: an unknown id answers `404`, and
canceling the `sent` job `schedSent` succeeds and overwrites its status. -/
theorem cancelSchedule_spec_witness :
    cancelSchedule "ghost" [schedSent] []
        = (.err 404 "Programación no encontrada.", [schedSent], [])
      ∧ cancelSchedule "s1" ([] ++ schedSent :: []) ["s1"]
          = (.ok (), [] ++ { schedSent with status := "canceled" } :: [],
             (["s1"] : List String).erase "s1") :=
  ⟨(cancelSchedule_spec "ghost" [] [schedSent] [] []
      { schedSent with id := "ghost" }
      (by intro x hx; simp at hx; subst hx; decide)
      (by intro x hx; cases hx) rfl).1,
   (cancelSchedule_spec "s1" ["s1"] [] [] [] schedSent
      (by intro x hx; cases hx)
      (by intro x hx; cases hx) rfl).2⟩

/-- C10: while the transport is not ready, `POST /api/schedules` answers
the error `409 WhatsApp no está listo.` before touching anything, so the
store is left exactly as it was and no job can be scheduled — even though
creation itself would only persist the record and arm a timer. -/
theorem postSchedules_requires_ready (parseDate : String → Option Int)
    (genId nowIso : String) (p : SchedulePayload) (store : List Schedule) :
    postSchedules false parseDate genId nowIso p store
      = (.err 409 "WhatsApp no está listo.", store) := rfl

theorem engine_length (cronValid tzValid : String → Bool)
    (items : List Campaign) :
    (scheduleCampaignEngine cronValid tzValid items).1.length = items.length := by
  induction items with
  | nil => rfl
  | cons c rest ih =>
    by_cases he : c.enabled = false
    · simp [scheduleCampaignEngine, he, ih]
    · by_cases hv : cronValid c.cron = false
      · simp [scheduleCampaignEngine, he, hv, ih]
      · simp [scheduleCampaignEngine, he, hv, ih]

theorem engine_disabled_mem (cronValid tzValid : String → Bool)
    (items : List Campaign) (c : Campaign) (hc : c ∈ items)
    (hen : c.enabled = true) (hbad : cronValid c.cron = false) :
    { c with enabled := false }
      ∈ (scheduleCampaignEngine cronValid tzValid items).1 := by
  induction items with
  | nil => cases hc
  | cons d rest ih =>
    rcases List.mem_cons.mp hc with h | h
    · subst h
      simp [scheduleCampaignEngine, hen, hbad]
    · have hmem := ih h
      by_cases he : d.enabled = false
      · simp only [scheduleCampaignEngine, he]
        exact List.mem_cons_of_mem _ (by simpa using hmem)
      · by_cases hv : cronValid d.cron = false
        · simp only [scheduleCampaignEngine, he, hv]
          exact List.mem_cons_of_mem _ (by simpa [he, hv] using hmem)
        · simp only [scheduleCampaignEngine, he, hv]
          exact List.mem_cons_of_mem _ (by simpa [he, hv] using hmem)

theorem engine_armed_sound (cronValid tzValid : String → Bool)
    (items : List Campaign) :
    ∀ a ∈ (scheduleCampaignEngine cronValid tzValid items).2,
      ∃ d, d ∈ items ∧ d.enabled = true ∧ cronValid d.cron = true
        ∧ a = (d.id, d.cron, effTz tzValid d.tz) := by
  induction items with
  | nil => intro a ha; cases ha
  | cons c rest ih =>
    intro a ha
    by_cases he : c.enabled = false
    · simp only [scheduleCampaignEngine, he] at ha
      obtain ⟨d, hd, h1, h2, h3⟩ := ih a (by simpa using ha)
      exact ⟨d, List.mem_cons_of_mem _ hd, h1, h2, h3⟩
    · by_cases hv : cronValid c.cron = false
      · simp only [scheduleCampaignEngine, he, hv] at ha
        obtain ⟨d, hd, h1, h2, h3⟩ := ih a (by simpa [he, hv] using ha)
        exact ⟨d, List.mem_cons_of_mem _ hd, h1, h2, h3⟩
      · simp only [scheduleCampaignEngine, he, hv] at ha
        have ha2 : a = (c.id, c.cron, effTz tzValid c.tz)
            ∨ a ∈ (scheduleCampaignEngine cronValid tzValid rest).2 := by
          simpa [he, hv] using ha
        rcases ha2 with h | h
        · exact ⟨c, by simp, by simpa using he, by simpa using hv, h⟩
        · obtain ⟨d, hd, h1, h2, h3⟩ := ih a h
          exact ⟨d, List.mem_cons_of_mem _ hd, h1, h2, h3⟩

/-- C5 counterexample: the claim says a job whose timezone fails
validation is forced to `enabled=false` and not armed.  Concretely,
rebuilding with a timezone validator that rejects everything leaves
`campBadTz` enabled and untouched in the persisted store, and arms its
trigger anyway — merely with the timezone replaced by the engine default
`undefined`. -/
theorem rebuild_bad_tz_still_armed_cex :
    campBadTz.enabled = true
      ∧ (scheduleCampaignEngine (fun s => s == "* * * * *") (fun _ => false)
          [campBadTz]).1 = [campBadTz]
      ∧ (scheduleCampaignEngine (fun s => s == "* * * * *") (fun _ => false)
          [campBadTz]).2 = [("c2", "* * * * *", none)] :=
  ⟨rfl, rfl, rfl⟩

/-- C5 (amended): during a rebuild, each stored job with `enabled=true`
whose calendar expression fails validation is forced to `enabled=false`
in the persisted store and no trigger is armed for it (every armed
trigger comes from a job with a valid expression); the rebuild is a total
function and the job remains in the store (the persisted store keeps one
record per input record).  An invalid timezone, however, does not disable
the job: the trigger is armed with the default timezone (see the
counterexample). -/
theorem rebuild_invalid_cron_disables (cronValid tzValid : String → Bool)
    (items : List Campaign) (c : Campaign) (hc : c ∈ items)
    (hen : c.enabled = true) (hbad : cronValid c.cron = false) :
    ({ c with enabled := false }
        ∈ (scheduleCampaignEngine cronValid tzValid items).1)
      ∧ (scheduleCampaignEngine cronValid tzValid items).1.length = items.length
      ∧ (∀ a ∈ (scheduleCampaignEngine cronValid tzValid items).2,
          ∃ d, d ∈ items ∧ d.enabled = true ∧ cronValid d.cron = true
            ∧ a = (d.id, d.cron, effTz tzValid d.tz)) :=
  ⟨engine_disabled_mem cronValid tzValid items c hc hen hbad,
   engine_length cronValid tzValid items,
   engine_armed_sound cronValid tzValid items⟩

/-- Witness for C5: rebuilding a store holding the enabled campaign with
expression `not-a-cron` persists it force-disabled, without throwing. -/
theorem rebuild_invalid_cron_disables_witness :
    ({ campBadCron with enabled := false }
        ∈ (scheduleCampaignEngine (fun s => s == "* * * * *") (fun _ => true)
            [campBadCron]).1)
      ∧ (scheduleCampaignEngine (fun s => s == "* * * * *") (fun _ => true)
          [campBadCron]).1.length = [campBadCron].length :=
  ⟨(rebuild_invalid_cron_disables (fun s => s == "* * * * *") (fun _ => true)
      [campBadCron] campBadCron (by simp) rfl rfl).1,
   (rebuild_invalid_cron_disables (fun s => s == "* * * * *") (fun _ => true)
      [campBadCron] campBadCron (by simp) rfl rfl).2.1⟩

/-- C7 counterexample: the claim says a successful trigger-fired run
clears `lastError`.  Concretely, a fully successful firing of `campStale`
persists `lastRunAt` but leaves the stale `lastError` of an earlier
failure in place. -/
theorem campaignFire_keeps_lastError_cex :
    (campaignFireBody true (fun _ => true) txAllOk campStale [campStale]
        "2026-02-02T00:00:00.000Z").1
      = [{ campStale with lastRunAt := some "2026-02-02T00:00:00.000Z" }]
  ∧ ({ campStale with
        lastRunAt := some "2026-02-02T00:00:00.000Z" } : Campaign).lastError
      = some "previous failure" :=
  ⟨rfl, rfl⟩

/-- C7 (amended): every executed trigger firing of a recurring job
persists `lastRunAt = now` on the job's stored record; on failure
(transport not ready, missing media, or invalid targets) it additionally
persists `lastError` with the failure message; on success it writes only
`lastRunAt`, leaving any previous `lastError` untouched (it is not
cleared).  The dispatcher itself never throws — per-target failures are
absorbed into outcomes — so the three failure messages below are the only
`lastError` values a firing can write. -/
theorem campaignFire_persistence (f : String → Bool) (tx : Transport)
    (c mid : Campaign) (pre post : List Campaign) (nowIso : String)
    (hpre : ∀ x ∈ pre, (x.id == c.id) = false)
    (hmid : (mid.id == c.id) = true) :
    (campaignFireBody false f tx c (pre ++ mid :: post) nowIso
        = (pre ++ { mid with
              lastError := some "WhatsApp no está listo.",
              lastRunAt := some nowIso } :: post, []))
  ∧ (c.media.all f = false →
      campaignFireBody true f tx c (pre ++ mid :: post) nowIso
        = (pre ++ { mid with
              lastError := some "Una o más imágenes no existen en el servidor.",
              lastRunAt := some nowIso } :: post, []))
  ∧ ((c.media.all f = true) →
      ((c.ids.filter (fun x => !isGroupId x)).isEmpty = false) →
      campaignFireBody true f tx c (pre ++ mid :: post) nowIso
        = (pre ++ { mid with
              lastError := some ("IDs inválidos: " ++ String.intercalate ", "
                (c.ids.filter (fun x => !isGroupId x))),
              lastRunAt := some nowIso } :: post, []))
  ∧ ((c.media.all f = true) →
      ((c.ids.filter (fun x => !isGroupId x)).isEmpty = true) →
      campaignFireBody true f tx c (pre ++ mid :: post) nowIso
        = (pre ++ { mid with lastRunAt := some nowIso } :: post,
           (sendToMany tx c.ids c.message c.media
             (some (.num (max 0 (jsOrInt c.mediaDelayMs 2000))))
             (some (.num (max 1500 (jsOrInt c.groupDelayMs 2000))))).1)
      ∧ ({ mid with lastRunAt := some nowIso } : Campaign).lastError
          = mid.lastError) := by
  refine ⟨?_, fun hm => ?_, fun hm hb => ?_, fun hm hb => ⟨?_, rfl⟩⟩
  · simp [campaignFireBody, updateFirst_middle _ _ pre mid post hpre hmid]
  · simp [campaignFireBody, hm, updateFirst_middle _ _ pre mid post hpre hmid]
  · simp [campaignFireBody, hm, hb,
      updateFirst_middle _ _ pre mid post hpre hmid]
  · simp [campaignFireBody, hm, hb,
      updateFirst_middle _ _ pre mid post hpre hmid]

/-- Witness for C7: a not-ready firing and a successful firing of
`campStale` in a singleton store, with the persisted records spelled
out. -/
theorem campaignFire_persistence_witness :
    (campaignFireBody false (fun _ => true) txAllOk campStale
        ([] ++ campStale :: []) "T1"
      = ([] ++ { campStale with
            lastError := some "WhatsApp no está listo.",
            lastRunAt := some "T1" } :: [], []))
  ∧ (campaignFireBody true (fun _ => true) txAllOk campStale
        ([] ++ campStale :: []) "T1"
      = ([] ++ { campStale with lastRunAt := some "T1" } :: [],
         (sendToMany txAllOk campStale.ids campStale.message campStale.media
           (some (.num (max 0 (jsOrInt campStale.mediaDelayMs 2000))))
           (some (.num (max 1500 (jsOrInt campStale.groupDelayMs 2000))))).1)) :=
  ⟨(campaignFire_persistence (fun _ => true) txAllOk campStale campStale [] []
      "T1" (by intro x hx; cases hx) rfl).1,
   ((campaignFire_persistence (fun _ => true) txAllOk campStale campStale [] []
      "T1" (by intro x hx; cases hx) rfl).2.2.2 rfl rfl).1⟩

/-- Behaviour of the upsert lookup: the first record matching the id. -/
theorem find?_middle {α : Type} (p : α → Bool) (pre : List α) (old : α)
    (post : List α) (hpre : ∀ x ∈ pre, p x = false) (hold : p old = true) :
    List.find? p (pre ++ old :: post) = some old := by
  induction pre with
  | nil => simp [List.find?, hold]
  | cons y ys ih =>
    have hy : p y = false := hpre y (by simp)
    simp only [List.cons_append, List.find?, hy]
    exact ih (fun x hx => hpre x (by simp [hx]))

/-- C6 counterexample: the claim says an upsert fully replaces the stored
record with the new one for both job kinds.  Concretely, re-submitting
recurring job `c1` stores a record that still carries the previous
record's `lastRunAt` and `lastError`, although the freshly built record
has both `null`. -/
theorem upsert_campaign_not_full_replace_cex :
    (mkCampaignItem campPayload "gen" "2026-03-03T00:00:00.000Z").lastRunAt = none
  ∧ (mkCampaignItem campPayload "gen" "2026-03-03T00:00:00.000Z").lastError = none
  ∧ (postCampaigns (fun s => s == "* * * * *") (fun _ => true) (fun _ => true)
       "gen" "2026-03-03T00:00:00.000Z" campPayload [campOld]).2
     = [{ mkCampaignItem campPayload "gen" "2026-03-03T00:00:00.000Z" with
           lastRunAt := some "2025-05-01T00:00:00.000Z",
           lastError := some "boom" }] :=
  ⟨rfl, rfl, rfl⟩

/-- C6 (amended): submitting a job whose id already exists replaces the
stored record in place.  For a one-shot job the replacement is full: the
stored record becomes exactly the record rebuilt from the payload, its
status is reset to `pending` even when the old record was terminal
(`sent`), and the subsequent re-arm pass arms its timer with delay
`max(0, whenMs - now)`.  For a recurring job the replacement keeps two
fields of the old record: `lastRunAt` and `lastError` are carried over
(falsy values coerced to `null`); every other field comes from the
payload. -/
theorem upsert_replaces_and_rearms
    (parseDate : String → Option Int) (genId nowIso : String)
    (p : SchedulePayload) (pre post : List Schedule) (old : Schedule)
    (w : String) (ts now : Int)
    (hids : p.ids.isEmpty = false)
    (hgood : (p.ids.filter (fun x => !isGroupId x)).isEmpty = true)
    (hwhen : jsStrOrD p.when "" = w) (hw : w ≠ "")
    (hparse : parseDate w = some ts)
    (hold : old.id = (mkScheduleItem p genId ts nowIso).id)
    (hterm : old.status = "sent")
    (hpre : ∀ x ∈ pre, (x.id == (mkScheduleItem p genId ts nowIso).id) = false)
    (cronValid tzValid fileExists : String → Bool)
    (cp : CampaignPayload) (cpre cpost : List Campaign) (cold : Campaign)
    (hcids : cp.ids.isEmpty = false)
    (hccron : jsStrOrD cp.cron "" ≠ "")
    (hcv : cronValid (jsStrOrD cp.cron "") = true)
    (htz : tzValid (jsStrOrD cp.tz "America/New_York") = true)
    (hcgood : (cp.ids.filter (fun x => !isGroupId x)).isEmpty = true)
    (hcmedia : cp.media.all fileExists = true)
    (hcold : cold.id = (mkCampaignItem cp genId nowIso).id)
    (hcpre : ∀ x ∈ cpre, (x.id == (mkCampaignItem cp genId nowIso).id) = false) :
    (postSchedules true parseDate genId nowIso p (pre ++ old :: post)
        = (.ok (mkScheduleItem p genId ts nowIso),
           pre ++ mkScheduleItem p genId ts nowIso :: post))
  ∧ ((mkScheduleItem p genId ts nowIso).status = "pending")
  ∧ (((mkScheduleItem p genId ts nowIso).id, max 0 (ts - now))
       ∈ rearmSchedules now (pre ++ mkScheduleItem p genId ts nowIso :: post))
  ∧ (postCampaigns cronValid tzValid fileExists genId nowIso cp
        (cpre ++ cold :: cpost)
      = (.ok { mkCampaignItem cp genId nowIso with
                 lastRunAt := jsStrOrNull cold.lastRunAt,
                 lastError := jsStrOrNull cold.lastError },
         cpre ++ { mkCampaignItem cp genId nowIso with
                 lastRunAt := jsStrOrNull cold.lastRunAt,
                 lastError := jsStrOrNull cold.lastError } :: cpost)) := by
  refine ⟨?_, rfl, ?_, ?_⟩
  · have hrepl := replaceFirstOrAppend_middle
      (fun x => x.id == (mkScheduleItem p genId ts nowIso).id)
      (mkScheduleItem p genId ts nowIso) pre old post hpre (by simp [hold])
    simp only [postSchedules, hids, hgood, hwhen, hparse]
    simp [hw, hrepl]
  · exact rearm_mem now _ (mkScheduleItem p genId ts nowIso)
      (by simp) rfl
  · have hfind := find?_middle
      (fun x => x.id == (mkCampaignItem cp genId nowIso).id)
      cpre cold cpost hcpre (by simp [hcold])
    have hrepl := replaceFirstOrAppend_middle
      (fun x => x.id == (mkCampaignItem cp genId nowIso).id)
      { mkCampaignItem cp genId nowIso with
          lastRunAt := jsStrOrNull cold.lastRunAt,
          lastError := jsStrOrNull cold.lastError }
      cpre cold cpost hcpre (by simp [hcold])
    simp only [postCampaigns, hcids, hcv, htz, hcgood, hcmedia]
    simp [hccron, hfind, hrepl]

/-- Witness for C6: re-submitting the already-`sent` one-shot job `s1`
replaces it with a `pending` record and re-arms it, and re-submitting
recurring job `c1` replaces it while carrying the old run metadata. -/
theorem upsert_replaces_and_rearms_witness :
    (postSchedules true (fun _ => some 500) "gen" "2026-03-03T00:00:00.000Z"
        pSched ([] ++ schedSent :: [])
      = (.ok (mkScheduleItem pSched "gen" 500 "2026-03-03T00:00:00.000Z"),
         [] ++ mkScheduleItem pSched "gen" 500 "2026-03-03T00:00:00.000Z" :: []))
  ∧ ((mkScheduleItem pSched "gen" 500 "2026-03-03T00:00:00.000Z").status
       = "pending")
  ∧ (((mkScheduleItem pSched "gen" 500 "2026-03-03T00:00:00.000Z").id,
       max 0 ((500 : Int) - 400))
       ∈ rearmSchedules 400
           ([] ++ mkScheduleItem pSched "gen" 500 "2026-03-03T00:00:00.000Z" :: []))
  ∧ (postCampaigns (fun s => s == "* * * * *") (fun _ => true) (fun _ => true)
        "gen" "2026-03-03T00:00:00.000Z" campPayload ([] ++ campOld :: [])
      = (.ok { mkCampaignItem campPayload "gen" "2026-03-03T00:00:00.000Z" with
                 lastRunAt := jsStrOrNull campOld.lastRunAt,
                 lastError := jsStrOrNull campOld.lastError },
         [] ++ { mkCampaignItem campPayload "gen" "2026-03-03T00:00:00.000Z" with
                 lastRunAt := jsStrOrNull campOld.lastRunAt,
                 lastError := jsStrOrNull campOld.lastError } :: [])) := by
  have h := upsert_replaces_and_rearms (fun _ => some 500) "gen"
    "2026-03-03T00:00:00.000Z" pSched [] [] schedSent
    "2026-01-05T00:00:00.000Z" 500 400
    rfl rfl rfl (by decide) rfl rfl rfl
    (by intro x hx; cases hx)
    (fun s => s == "* * * * *") (fun _ => true) (fun _ => true)
    campPayload [] [] campOld
    rfl (by decide) rfl rfl rfl rfl rfl
    (by intro x hx; cases hx)
  exact ⟨h.1, h.2.1, h.2.2.1, h.2.2.2⟩
